import Mathlib

/-!
Shallow embedding of the error-signature detection and log-triage engine of
`circle-debug` (`src/main.rs`, function `analyze_build`), together with proofs
about it.

A log body is a `String`; `rustLines` models the Rust function `str::lines`
(split on newline, no trailing empty line, carriage returns stripped).  The
fixed case-insensitive regex catalogue of `analyze_build` is embedded pattern
by pattern as executable predicates over the lowered character list, which
agrees with how the `regex` crate matches the `(?i)` patterns of the
catalogue, all of which are ASCII.
-/

set_option maxRecDepth 10000

namespace CircleDebug

/-- Characters of a string, lowered character-wise.  Models the effect of the
`(?i)` flag at the ASCII level, where it agrees with the Rust matching. -/
def lowerChars (s : String) : List Char := s.data.map Char.toLower

/-- A string lowered character-wise (models Rust `str::to_lowercase` on ASCII). -/
def lowerString (s : String) : String := String.mk (s.data.map Char.toLower)

/-- Does the needle occur as a contiguous run somewhere in the haystack? -/
def hasInfix (needle : List Char) : List Char → Bool
  | [] => needle.isEmpty
  | c :: rest => needle.isPrefixOf (c :: rest) || hasInfix needle rest

/-- Case-sensitive substring test (models Rust `str::contains`). -/
def containsStr (s pat : String) : Bool := hasInfix pat.data s.data

/-- Case-insensitive substring test: the needle (written lowercase) occurs
somewhere in the line.  Embeds a regex of the form `(?i)lit`. -/
def ciHas (needle line : String) : Bool := hasInfix needle.data (lowerChars line)

/-- The remainder of `l` after the first occurrence of `needle`, if any. -/
def afterFirst (needle : List Char) : List Char → Option (List Char)
  | [] => if needle.isEmpty then some [] else none
  | c :: rest =>
    if needle.isPrefixOf (c :: rest) then some (List.drop needle.length (c :: rest))
    else afterFirst needle rest

/-- Embeds a regex of the form `(?i)a.*b` on a single line (no newlines, so
`.` is unrestricted): some occurrence of `a` is followed by an occurrence of
`b`.  Taking the first occurrence of `a` is equivalent. -/
def ciSeq (a b : String) (line : String) : Bool :=
  match afterFirst a.data (lowerChars line) with
  | some rest => hasInfix b.data rest
  | none => false

/-- Does some suffix of the list satisfy `p`?  Used to embed regexes that need
a positional sub-match. -/
def anySuffix (p : List Char → Bool) : List Char → Bool
  | [] => p []
  | c :: rest => p (c :: rest) || anySuffix p rest

/-- After at least one digit and then a maximal digit run, a colon follows. -/
def digitsColonAux : List Char → Bool
  | [] => false
  | c :: rest => if c.isDigit then digitsColonAux rest else c = ':'

/-- One or more digits immediately followed by a colon (embeds `\d+:`). -/
def digitsColon : List Char → Bool
  | [] => false
  | c :: rest => c.isDigit && digitsColonAux rest

/-- Embeds `(?i)error TS\d+:`. -/
def tsErrorMatch (line : String) : Bool :=
  anySuffix
    (fun l => "error ts".data.isPrefixOf l && digitsColon (l.drop "error ts".length))
    (lowerChars line)

/-- The four words of the test-suite-failure alternation. -/
def testSuiteWords : List String := ["test", "tests", "spec", "specs"]

/-- Embeds `(?i)\d+ (test|tests|spec|specs) failed`. -/
def testSuiteMatch (line : String) : Bool :=
  anySuffix
    (fun l =>
      match l with
      | [] => false
      | c :: rest =>
        c.isDigit && testSuiteWords.any (fun w => (" " ++ w ++ " failed").data.isPrefixOf rest))
    (lowerChars line)

/-- A nonempty list starting with a digit from 1 to 9 (embeds `[1-9]`). -/
def nonZeroDigit : List Char → Bool
  | [] => false
  | c :: _ => ['1', '2', '3', '4', '5', '6', '7', '8', '9'].contains c

/-- Embeds `(?i)exited with (code|status) [1-9]`. -/
def exitMatch (line : String) : Bool :=
  anySuffix
    (fun l =>
      ("exited with code ".data.isPrefixOf l
          && nonZeroDigit (l.drop "exited with code ".length))
        || ("exited with status ".data.isPrefixOf l
          && nonZeroDigit (l.drop "exited with status ".length)))
    (lowerChars line)

/-- Embeds `(?i)(oom|out of memory|memory limit)`. -/
def oomMatch (line : String) : Bool :=
  ciHas "oom" line || ciHas "out of memory" line || ciHas "memory limit" line

/-- The fixed ordered signature catalogue of `analyze_build`
(`src/main.rs:527-568`): each entry is the embedded match predicate of the
regex in the source together with its category label, in the priority order
of the source. -/
def error_patterns : List ((String → Bool) × String) :=
  [ (ciSeq "[commonjs--resolver]" "failed to resolve", "Module Resolution"),
    (ciHas "cannot find module", "Missing Module"),
    (ciSeq "enoent:" "no such file or directory", "File Not Found"),
    (ciHas "syntaxerror:", "Syntax Error"),
    (ciHas "typeerror:", "Type Error"),
    (ciHas "referenceerror:", "Reference Error"),
    (ciHas "segmentation fault", "Segfault"),
    (oomMatch, "Out of Memory"),
    (ciHas "build failed", "Build Failure"),
    (ciHas "compilation failed", "Compilation Error"),
    (tsErrorMatch, "TypeScript Error"),
    (ciSeq "eslint" "error", "Lint Error"),
    (ciSeq "test" "failed", "Test Failure"),
    (ciSeq "assertion" "failed", "Assertion Failure"),
    (testSuiteMatch, "Test Suite Failure"),
    (ciHas "npm err!", "NPM Error"),
    (ciHas "yarn error", "Yarn Error"),
    (ciSeq "dependency" "not found", "Missing Dependency"),
    (exitMatch, "Non-zero Exit"),
    (ciHas "command failed", "Command Failure") ]

/-- One attributed match, as pushed onto `found_errors` in the source:
category label, full matching line, and 1-based line number. -/
structure Match where
  category : String
  line_text : String
  line_number : Nat
deriving DecidableEq

/-- Split a character list at every newline character; the accumulator holds
the current field reversed. -/
def splitNlAux : List Char → List Char → List (List Char)
  | [], acc => [acc.reverse]
  | c :: rest, acc =>
    if c = '\n' then acc.reverse :: splitNlAux rest []
    else splitNlAux rest (c :: acc)

/-- Drop one trailing carriage return, as Rust `str::lines` does per line. -/
def stripCR (p : List Char) : List Char :=
  if p.getLast? = some '\r' then p.dropLast else p

/-- The lines of a log body, as Rust `str::lines` produces them: split on
newline, with no trailing empty line and with a trailing carriage return
stripped from each line. -/
def rustLines (s : String) : List String :=
  let parts := splitNlAux s.data []
  let parts := if parts.getLast? = some [] then parts.dropLast else parts
  parts.map (fun p => String.mk (stripCR p))

/-- Trim ASCII whitespace from both ends (models Rust `str::trim` at the
ASCII level). -/
def trimStr (s : String) : String :=
  String.mk (((s.data.dropWhile Char.isWhitespace).reverse.dropWhile Char.isWhitespace).reverse)

/-- The inner loop of the scan (`src/main.rs:574-588`): walk the lines for one
signature, appending a match per matching line, and stop as soon as the global
match count reaches 5. -/
def scanSig (p : String → Bool) (c : String) : List String → Nat → List Match → List Match
  | [], _, acc => acc
  | line :: rest, idx, acc =>
    if p line then
      if (acc ++ [Match.mk c line (idx + 1)]).length ≥ 5 then acc ++ [Match.mk c line (idx + 1)]
      else scanSig p c rest (idx + 1) (acc ++ [Match.mk c line (idx + 1)])
    else scanSig p c rest (idx + 1) acc

/-- The outer loop of the scan (`src/main.rs:572-592`): walk the catalogue in
priority order, stopping once the global match count reaches 5. -/
def scanCat : List ((String → Bool) × String) → List String → List Match → List Match
  | [], _, acc => acc
  | (p, c) :: sigs, l, acc =>
    if (scanSig p c l 0 acc).length ≥ 5 then scanSig p c l 0 acc
    else scanCat sigs l (scanSig p c l 0 acc)

/-- The scan of `analyze_build`: the `found_errors` vector computed at
`src/main.rs:570-592` for a given log body. -/
def scan (s : String) : List Match := scanCat error_patterns (rustLines s) []

/-- All matches of one signature in line order, starting at 0-based line
index `idx`; the straight-line (uncapped) description of the inner loop. -/
def sigMatchesFrom (p : String → Bool) (c : String) : Nat → List String → List Match
  | _, [] => []
  | idx, line :: rest =>
    (if p line then [Match.mk c line (idx + 1)] else []) ++ sigMatchesFrom p c (idx + 1) rest

/-- All matches of the whole catalogue over the given lines, catalogue order
outer and line order inner, with no cap. -/
def catMatches (l : List String) : List Match :=
  error_patterns.flatMap (fun pc => sigMatchesFrom pc.1 pc.2 0 l)

/-- The scan as the specification words it: every match in catalogue-priority
order (outer) and line order (inner), truncated to the 5-match cap. -/
def scanSpec (s : String) : List Match := (catMatches (rustLines s)).take 5

/-- The contextual suggestion table of `analyze_build`
(`src/main.rs:613-644`): category label (and, for `File Not Found`, the text
of the matched line) to remediation hint; categories outside the table get
no suggestion. -/
def suggestion (category : String) (line : String) : Option String :=
  if category = "File Not Found" then
    if containsStr line "README" || containsStr line "readme" then
      some "Check file case sensitivity (README.md vs readme.md)"
    else if containsStr line "package.json" then
      some "Run \x27npm install\x27 to ensure dependencies are installed"
    else
      some "Verify file exists and path is correct"
  else if category = "Missing Module" || category = "Missing Dependency" then
    some "Run \x27npm install\x27 or check package.json dependencies"
  else if category = "TypeScript Error" then
    some "Run \x27npm run typecheck\x27 locally to see full type errors"
  else if category = "Lint Error" then
    some "Run \x27npm run lint -- --fix\x27 to auto-fix some issues"
  else if category = "Test Failure" || category = "Test Suite Failure" then
    some "Run tests locally with \x27--verbose\x27 for more details"
  else if category = "Out of Memory" then
    some "Increase Node memory: NODE_OPTIONS=\x27--max-old-space-size=4096\x27"
  else if category = "NPM Error" || category = "Yarn Error" then
    some "Clear cache (npm cache clean --force) and reinstall"
  else
    none

/-- The style selector of a rendered tail-window line (`src/main.rs:680-702`):
matched (smart-detection hit), error-like, warning-like, or plain. -/
inductive LineStyle where
  | matched
  | errorLike
  | warningLike
  | plain
deriving DecidableEq

/-- The error-like text test of the default tail window (`src/main.rs:688-691`)
on the already-trimmed line. -/
def errorLikeText (trimmed : String) : Bool :=
  containsStr (lowerString trimmed) "error" || containsStr (lowerString trimmed) "failed"
    || containsStr trimmed "✗" || containsStr trimmed "FAIL"

/-- The warning-like text test of the default tail window (`src/main.rs:698`)
on the already-trimmed line. -/
def warnLikeText (trimmed : String) : Bool :=
  containsStr (lowerString trimmed) "warn"

/-- Classification of one line of the default tail window
(`src/main.rs:671-702`): matched line numbers first, then error-like text,
then warning-like text, else plain. -/
def classify (nums : List Nat) (lineNum : Nat) (line : String) : LineStyle :=
  if nums.contains lineNum then LineStyle.matched
  else if errorLikeText (trimStr line) then LineStyle.errorLike
  else if warnLikeText (trimStr line) then LineStyle.warningLike
  else LineStyle.plain

/-- The rendered tail window: 1-based line number, trimmed text, and style for
each displayed line, numbering from 0-based start offset `idx`
(`src/main.rs:671-703`). -/
def windowFrom (nums : List Nat) : Nat → List String → List (Nat × String × LineStyle)
  | _, [] => []
  | idx, line :: rest =>
    (idx + 1, trimStr line, classify nums (idx + 1) line) :: windowFrom nums (idx + 1) rest

/-- The start offset of an N-line tail window (`src/main.rs:509-511,655-660`). -/
def tailStart (l : List String) (n : Nat) : Nat :=
  if l.length > n then l.length - n else 0

/-- The disclosure mode, as selected from the `--full` and `--tail` flags
(`src/main.rs:500-520`): full dump, fixed tail, or smart default. -/
inductive DisclosureMode where
  | full
  | tail (n : Nat)
  | default
deriving DecidableEq

/-- The text blocks produced for one log body in one disclosure mode: the
verbatim full dump, the tail window with its requested size, the
smart-detection block (each match paired with its optional suggestion), the
no-patterns notice, and the classified last-50 window. -/
structure Report where
  fullBlock : Option String
  tailBlock : Option (Nat × List String)
  detection : Option (List (Match × Option String))
  notice : Option String
  window : Option (List (Nat × String × LineStyle))
deriving DecidableEq

/-- The disclosure renderer of `analyze_build` (`src/main.rs:500-724`): full
mode prints the log verbatim; tail mode prints the last N lines; default mode
prints the smart-detection block (or the no-patterns notice) followed by the
classified last-50 window. -/
def render (s : String) (mode : DisclosureMode) : Report :=
  match mode with
  | DisclosureMode.full => ⟨some s, none, none, none, none⟩
  | DisclosureMode.tail n =>
    ⟨none, some (n, (rustLines s).drop (tailStart (rustLines s) n)), none, none, none⟩
  | DisclosureMode.default =>
    ⟨none, none,
      if (scan s).isEmpty then none
      else some (((scan s).take 5).map (fun m => (m, suggestion m.category m.line_text))),
      if (scan s).isEmpty then some "No specific error patterns detected" else none,
      some (windowFrom ((scan s).map (fun m => m.line_number))
        (tailStart (rustLines s) 50)
        ((rustLines s).drop (tailStart (rustLines s) 50)))⟩

/-- The tail-window classification rule as the specification words it: a line
is `matched` when its number is in the matched line-number set (regardless of
its text), else `errorLike` on error-like trimmed text, else `warningLike` on
warning-like trimmed text, else `plain`.  Stated over the trimmed text, which
is what the window displays. -/
def styleRule (nums : List Nat) (lineNum : Nat) (trimmed : String) : LineStyle :=
  if lineNum ∈ nums then LineStyle.matched
  else if errorLikeText trimmed then LineStyle.errorLike
  else if warnLikeText trimmed then LineStyle.warningLike
  else LineStyle.plain

/-- The literal missing-module line used by the example in the specification. -/
def mmLine : String := "Error: cannot find module \x27foo\x27"

/-- A line matching the highest-priority (module resolver) signature. -/
def resolverLine : String := "[commonjs--resolver] ./a.ts: failed to resolve import"

/-- A log whose first five lines exhaust the match cap on the first signature
before the missing-module line is ever reached. -/
def sBad : String := String.intercalate "\n" (List.replicate 5 resolverLine ++ [mmLine])

/-- Two-line log and its line-order permutation, both matching one signature. -/
def permLogA : String := "typeerror: a\ntypeerror: b"

/-- Line-order permutation of `permLogA`. -/
def permLogB : String := "typeerror: b\ntypeerror: a"

/-- Two-line log matching two different signatures. -/
def permLogC : String := "typeerror: x\nbuild failed"

/-- Line-order permutation of `permLogC`. -/
def permLogD : String := "build failed\ntypeerror: x"

/-- A one-line log matching two distinct catalogue signatures. -/
def dualLog : String := "typeerror: integration test failed"

/-- A log matching no catalogue signature. -/
def cleanLog : String := "all good here\nstill fine"

/-- A 200-line log body. -/
def testLog200 : String := String.intercalate "\n" (List.replicate 200 "npm install log line")

/-! Structural lemmas about the uncapped per-signature match list. -/

theorem sigMatchesFrom_length (p : String → Bool) (c : String) :
    ∀ (idx : Nat) (l : List String), (sigMatchesFrom p c idx l).length = l.countP p := by
  intro idx l
  induction l generalizing idx with
  | nil => simp [sigMatchesFrom]
  | cons line rest ih =>
    by_cases h : p line = true <;>
      simp [sigMatchesFrom, h, ih, List.countP_cons]

theorem sigMatchesFrom_map_category (p : String → Bool) (c : String) :
    ∀ (idx : Nat) (l : List String),
      (sigMatchesFrom p c idx l).map (fun m => m.category) = List.replicate (l.countP p) c := by
  intro idx l
  induction l generalizing idx with
  | nil => simp [sigMatchesFrom]
  | cons line rest ih =>
    by_cases h : p line = true <;>
      simp [sigMatchesFrom, h, ih, List.countP_cons, List.replicate_succ]

theorem sigMatchesFrom_mem_bounds (p : String → Bool) (c : String) :
    ∀ (idx : Nat) (l : List String) (m : Match), m ∈ sigMatchesFrom p c idx l →
      idx + 1 ≤ m.line_number ∧ m.line_number ≤ idx + l.length := by
  intro idx l
  induction l generalizing idx with
  | nil => intro m h; simp [sigMatchesFrom] at h
  | cons line rest ih =>
    intro m h
    by_cases hp : p line = true
    · simp only [sigMatchesFrom, hp, if_pos, List.singleton_append, List.mem_cons] at h
      rcases h with h | h
      · subst h; simp
      · have := ih (idx + 1) m h
        simp only [List.length_cons]
        omega
    · simp only [sigMatchesFrom, hp, if_neg, Bool.false_eq_true, not_false_iff,
        List.nil_append] at h
      have := ih (idx + 1) m h
      simp only [List.length_cons]
      omega

theorem sigMatchesFrom_append (p : String → Bool) (c : String) :
    ∀ (idx : Nat) (l₁ l₂ : List String),
      sigMatchesFrom p c idx (l₁ ++ l₂)
        = sigMatchesFrom p c idx l₁ ++ sigMatchesFrom p c (idx + l₁.length) l₂ := by
  intro idx l₁
  induction l₁ generalizing idx with
  | nil => simp [sigMatchesFrom]
  | cons line rest ih =>
    intro l₂
    have harith : idx + 1 + rest.length = idx + (rest.length + 1) := by omega
    by_cases hp : p line = true <;>
      simp [sigMatchesFrom, hp, ih (idx + 1), harith]

/-! The capped scan equals the truncation of the uncapped catalogue-order
match list. -/

theorem scanSig_eq (p : String → Bool) (c : String) :
    ∀ (l : List String) (idx : Nat) (acc : List Match), acc.length < 5 →
      scanSig p c l idx acc = (acc ++ sigMatchesFrom p c idx l).take 5 := by
  intro l
  induction l with
  | nil =>
    intro idx acc h
    simp [scanSig, sigMatchesFrom, List.take_of_length_le (Nat.le_of_lt h)]
  | cons line rest ih =>
    intro idx acc h
    by_cases hp : p line = true
    · by_cases h5 : (acc ++ [Match.mk c line (idx + 1)]).length ≥ 5
      · have hacc : acc.length = 4 := by
          simp only [List.length_append, List.length_cons, List.length_nil] at h5
          omega
        simp only [scanSig, hp, if_true]
        rw [if_pos h5]
        rw [sigMatchesFrom, if_pos hp, List.singleton_append,
          List.take_append_eq_append_take]
        rw [List.take_of_length_le (by omega : acc.length ≤ 5)]
        rw [show 5 - acc.length = 1 from by omega]
        simp
      · have hlt : (acc ++ [Match.mk c line (idx + 1)]).length < 5 := by omega
        simp only [scanSig, hp, if_true]
        rw [if_neg h5]
        rw [ih (idx + 1) _ hlt]
        rw [sigMatchesFrom, if_pos hp, List.singleton_append, List.append_cons]
        rw [List.append_assoc]
        simp
    · simp only [scanSig, hp, if_false, Bool.false_eq_true]
      rw [sigMatchesFrom, if_neg hp, List.nil_append]
      exact ih (idx + 1) acc h

theorem scanCat_eq :
    ∀ (sigs : List ((String → Bool) × String)) (l : List String) (acc : List Match),
      acc.length < 5 →
      scanCat sigs l acc
        = (acc ++ sigs.flatMap (fun pc => sigMatchesFrom pc.1 pc.2 0 l)).take 5 := by
  intro sigs
  induction sigs with
  | nil =>
    intro l acc h
    simp [scanCat, List.take_of_length_le (Nat.le_of_lt h)]
  | cons pc sigs ih =>
    intro l acc h
    obtain ⟨p, c⟩ := pc
    have hsig := scanSig_eq p c l 0 acc h
    by_cases h5 : (scanSig p c l 0 acc).length ≥ 5
    · have hlen : 5 ≤ (acc ++ sigMatchesFrom p c 0 l).length := by
        rw [hsig] at h5
        simp only [List.length_take] at h5
        omega
      have hz : 5 - (acc ++ sigMatchesFrom p c 0 l).length = 0 := by omega
      simp only [scanCat]
      rw [if_pos h5, hsig]
      simp only [List.flatMap_cons]
      rw [← List.append_assoc]
      conv_rhs => rw [List.take_append_eq_append_take, hz]
      simp
    · have hlt : (scanSig p c l 0 acc).length < 5 := by omega
      have hslen : (acc ++ sigMatchesFrom p c 0 l).length < 5 := by
        rw [hsig] at hlt
        simp only [List.length_take] at hlt
        omega
      have hwhole : (acc ++ sigMatchesFrom p c 0 l).take 5 = acc ++ sigMatchesFrom p c 0 l :=
        List.take_of_length_le (by omega)
      simp only [scanCat]
      rw [if_neg h5, hsig, hwhole, ih l _ hslen]
      simp only [List.flatMap_cons]
      rw [List.append_assoc]

theorem scan_eq_take (s : String) : scan s = (catMatches (rustLines s)).take 5 := by
  have h := scanCat_eq error_patterns (rustLines s) [] (by simp)
  simpa [scan, catMatches] using h

/-- C2: the scan produces matches in catalogue-priority order (outer) and line
order (inner), and the whole scan stops once the global count reaches 5: the
computed `found_errors` list is exactly the 5-truncation of the full
catalogue-order, line-order match list, so no later signature contributes once
an earlier one has exhausted the cap. -/
theorem scan_eq_spec_order (s : String) : scan s = scanSpec s :=
  scan_eq_take s

/-- C1: a scan returns at most 5 matches, and every returned match carries a
valid 1-based line number of the scanned log body. -/
theorem scan_at_most_five_and_line_numbers_valid (s : String) :
    (scan s).length ≤ 5 ∧
      ∀ m ∈ scan s, 1 ≤ m.line_number ∧ m.line_number ≤ (rustLines s).length := by
  constructor
  · rw [scan_eq_take]
    simp only [List.length_take]
    omega
  · intro m hm
    rw [scan_eq_take] at hm
    have hm' : m ∈ catMatches (rustLines s) := List.take_subset _ _ hm
    rcases List.mem_flatMap.mp hm' with ⟨pc, _, hmem⟩
    have hb := sigMatchesFrom_mem_bounds pc.1 pc.2 0 (rustLines s) m hmem
    omega

/-- Witness for C1: the concrete match returned on the one-line log
`typeerror: x` has a line number inside the log. -/
theorem scan_cap_line_numbers_witness :
    1 ≤ (Match.mk "Type Error" "typeerror: x" 1).line_number ∧
      (Match.mk "Type Error" "typeerror: x" 1).line_number ≤ (rustLines "typeerror: x").length :=
  (scan_at_most_five_and_line_numbers_valid "typeerror: x").2
    (Match.mk "Type Error" "typeerror: x" 1) (by decide)

/-! Category sequences are determined by per-signature match counts. -/

theorem catMatches_map_category (l : List String) :
    (catMatches l).map (fun m => m.category)
      = error_patterns.flatMap (fun pc => List.replicate (l.countP pc.1) pc.2) := by
  rw [catMatches, List.map_flatMap]
  have h : (fun pc : (String → Bool) × String =>
        (sigMatchesFrom pc.1 pc.2 0 l).map (fun m => m.category))
      = fun pc => List.replicate (l.countP pc.1) pc.2 :=
    funext fun pc => sigMatchesFrom_map_category pc.1 pc.2 0 l
  rw [h]

theorem scan_map_category (s : String) :
    (scan s).map (fun m => m.category)
      = (error_patterns.flatMap
          (fun pc => List.replicate ((rustLines s).countP pc.1) pc.2)).take 5 := by
  rw [scan_eq_take, List.map_take, catMatches_map_category]

/-- Counterexample to C3 as stated: two log bodies that are line-order
permutations of each other whose scans agree on line numbers but differ in
the sequence of matched line texts, so the outputs do not differ only in line
numbers. -/
theorem scan_perm_line_texts_counterexample :
    (rustLines permLogA).Perm (rustLines permLogB) ∧
      (scan permLogA).map (fun m => m.line_number)
        = (scan permLogB).map (fun m => m.line_number) ∧
      (scan permLogA).map (fun m => m.line_text)
        ≠ (scan permLogB).map (fun m => m.line_text) :=
  ⟨by decide, by decide, by decide⟩

/-- C3 (amended): for two log bodies identical except for the order of their
lines, the scans produce the same sequence of categories; the matched line
texts are drawn per signature from the same lines but in the line order of
each log, so they need not coincide. -/
theorem scan_perm_categories_eq (a b : String)
    (h : (rustLines a).Perm (rustLines b)) :
    (scan a).map (fun m => m.category) = (scan b).map (fun m => m.category) := by
  rw [scan_map_category, scan_map_category]
  have hcong : (fun pc : (String → Bool) × String =>
        List.replicate ((rustLines a).countP pc.1) pc.2)
      = fun pc => List.replicate ((rustLines b).countP pc.1) pc.2 :=
    funext fun pc => by rw [List.Perm.countP_eq pc.1 h]
  rw [hcong]

/-- Witness for the amended C3 at two concrete permuted logs. -/
theorem scan_perm_categories_witness :
    (rustLines permLogC).Perm (rustLines permLogD) ∧
      (scan permLogC).map (fun m => m.category) = (scan permLogD).map (fun m => m.category) :=
  ⟨by decide, scan_perm_categories_eq permLogC permLogD (by decide)⟩

/-- C10: a single line whose text matches two distinct catalogue signatures
produces two separate matches with the same line number and different
categories, both counted by the cap, so returned line numbers are not
pairwise distinct. -/
theorem duplicate_line_two_categories :
    scan dualLog = [Match.mk "Type Error" dualLog 1, Match.mk "Test Failure" dualLog 1] ∧
      (scan dualLog).length = 2 ∧
      ¬ ((scan dualLog).map (fun m => m.line_number)).Nodup :=
  ⟨by decide, by decide, by decide⟩

/-- C9: full mode returns the verbatim input log text as its one block and
carries no match, notice, tail or window output, regardless of what the scan
would compute. -/
theorem render_full_verbatim (s : String) :
    (render s DisclosureMode.full).fullBlock = some s ∧
      (render s DisclosureMode.full).tailBlock = none ∧
      (render s DisclosureMode.full).detection = none ∧
      (render s DisclosureMode.full).notice = none ∧
      (render s DisclosureMode.full).window = none :=
  ⟨rfl, rfl, rfl, rfl, rfl⟩

theorem tailStart_eq (l : List String) (n : Nat) : tailStart l n = l.length - n := by
  rw [tailStart]
  split <;> omega

/-- C6: tail mode returns exactly the last `min n L` lines in original order
and nothing else: no full dump, no detection block, no notice, no classified
window. -/
theorem render_tail_window (s : String) (n : Nat) (hn : 0 < n) :
    render s (DisclosureMode.tail n)
        = ⟨none, some (n, (rustLines s).drop ((rustLines s).length - n)), none, none, none⟩ ∧
      ((rustLines s).drop ((rustLines s).length - n)).length = min n (rustLines s).length := by
  constructor
  · simp only [render, tailStart_eq]
  · rw [List.length_drop]
    omega

/-- Witness for C6: a 200-line log with `Tail(300)` requested yields all 200
lines. -/
theorem render_tail_window_witness :
    0 < 300 ∧
      (render testLog200 (DisclosureMode.tail 300)
          = ⟨none, some (300, (rustLines testLog200).drop ((rustLines testLog200).length - 300)),
              none, none, none⟩ ∧
        ((rustLines testLog200).drop ((rustLines testLog200).length - 300)).length
          = min 300 (rustLines testLog200).length) ∧
      (rustLines testLog200).length = 200 :=
  ⟨by decide, render_tail_window testLog200 300 (by decide), by decide⟩

/-! Structural lemmas about the rendered tail window. -/

theorem windowFrom_length (nums : List Nat) :
    ∀ (idx : Nat) (l : List String), (windowFrom nums idx l).length = l.length := by
  intro idx l
  induction l generalizing idx with
  | nil => simp [windowFrom]
  | cons line rest ih => simp [windowFrom, ih]

theorem windowFrom_map_num (nums : List Nat) :
    ∀ (idx : Nat) (l : List String),
      (windowFrom nums idx l).map (fun e => e.1) = List.range' (idx + 1) l.length := by
  intro idx l
  induction l generalizing idx with
  | nil => simp [windowFrom]
  | cons line rest ih => simp [windowFrom, ih, List.range'_succ]

theorem windowFrom_map_text (nums : List Nat) :
    ∀ (idx : Nat) (l : List String),
      (windowFrom nums idx l).map (fun e => e.2.1) = l.map trimStr := by
  intro idx l
  induction l generalizing idx with
  | nil => simp [windowFrom]
  | cons line rest ih => simp [windowFrom, ih]

theorem windowFrom_style (nums : List Nat) :
    ∀ (idx : Nat) (l : List String) (e : Nat × String × LineStyle),
      e ∈ windowFrom nums idx l → e.2.2 = styleRule nums e.1 e.2.1 := by
  intro idx l
  induction l generalizing idx with
  | nil => intro e he; simp [windowFrom] at he
  | cons line rest ih =>
    intro e he
    simp only [windowFrom, List.mem_cons] at he
    rcases he with he | he
    · subst he
      simp only [classify, styleRule]
      by_cases hmem : (idx + 1) ∈ nums
      · rw [if_pos (by simpa [List.contains] using List.elem_iff.mpr hmem), if_pos hmem]
      · rw [if_neg (by simpa [List.contains] using fun hcon => hmem (List.elem_iff.mp hcon)),
          if_neg hmem]
    · exact ih (idx + 1) e he

theorem render_default_window_eq (s : String) :
    (render s DisclosureMode.default).window
      = some (windowFrom ((scan s).map (fun m => m.line_number))
          (tailStart (rustLines s) 50)
          ((rustLines s).drop (tailStart (rustLines s) 50))) := rfl

/-- C7: the default-mode tail window shows exactly the last 50 lines (all of
them when the log is shorter), with consecutive 1-based line numbers ending at
the last line and the trimmed texts of those lines. -/
theorem render_default_last_fifty (s : String) :
    ∃ w, (render s DisclosureMode.default).window = some w ∧
      w.length = min 50 (rustLines s).length ∧
      w.map (fun e => e.1)
        = List.range' ((rustLines s).length - 50 + 1) (min 50 (rustLines s).length) ∧
      w.map (fun e => e.2.1) = ((rustLines s).drop ((rustLines s).length - 50)).map trimStr := by
  refine ⟨_, render_default_window_eq s, ?_, ?_, ?_⟩
  · rw [windowFrom_length, List.length_drop, tailStart_eq]
    omega
  · rw [windowFrom_map_num, List.length_drop, tailStart_eq]
    congr 1
    omega
  · rw [windowFrom_map_text, tailStart_eq]

/-- C4: every line of the default-mode tail window carries exactly the style
given by the total precedence rule: matched line numbers first (even when the
text alone would be plain), then error-like text, then warning-like text,
else plain. -/
theorem window_style_precedence (s : String) (w : List (Nat × String × LineStyle))
    (e : Nat × String × LineStyle)
    (hw : (render s DisclosureMode.default).window = some w) (he : e ∈ w) :
    e.2.2 = styleRule ((scan s).map (fun m => m.line_number)) e.1 e.2.1 := by
  rw [render_default_window_eq] at hw
  have hw' := Option.some.inj hw
  rw [← hw'] at he
  exact windowFrom_style _ _ _ e he

/-- Witness for C4 at a concrete log whose only window line is warning-like. -/
theorem window_style_precedence_witness :
    ((1, "warning: low disk space", LineStyle.warningLike) : Nat × String × LineStyle).2.2
      = styleRule ((scan "warning: low disk space").map (fun m => m.line_number))
        ((1, "warning: low disk space", LineStyle.warningLike) : Nat × String × LineStyle).1
        ((1, "warning: low disk space", LineStyle.warningLike) : Nat × String × LineStyle).2.1 :=
  window_style_precedence "warning: low disk space"
    [(1, "warning: low disk space", LineStyle.warningLike)]
    (1, "warning: low disk space", LineStyle.warningLike) (by decide) (by decide)

theorem styleRule_nil_ne_matched (n : Nat) (t : String) :
    styleRule [] n t ≠ LineStyle.matched := by
  rw [styleRule]
  simp only [List.not_mem_nil, if_false]
  split
  · simp
  · split <;> simp

/-- C8: when the scan finds no match, default mode shows the literal
no-patterns notice instead of any per-match output, and no line of the tail
window is classified as matched. -/
theorem render_default_no_matches (s : String) (h : scan s = []) :
    (render s DisclosureMode.default).notice = some "No specific error patterns detected" ∧
      (render s DisclosureMode.default).detection = none ∧
      ∀ w, (render s DisclosureMode.default).window = some w →
        ∀ e ∈ w, e.2.2 ≠ LineStyle.matched := by
  refine ⟨by simp [render, h], by simp [render, h], ?_⟩
  intro w hw e he
  rw [render_default_window_eq, h] at hw
  have hw' := Option.some.inj hw
  rw [← hw'] at he
  have hst := windowFrom_style _ _ _ e he
  rw [hst]
  exact styleRule_nil_ne_matched _ _

/-- Witness for C8 at a concrete matchless log. -/
theorem render_default_no_matches_witness :
    (render cleanLog DisclosureMode.default).notice
        = some "No specific error patterns detected" ∧
      (render cleanLog DisclosureMode.default).detection = none ∧
      ∀ w, (render cleanLog DisclosureMode.default).window = some w →
        ∀ e ∈ w, e.2.2 ≠ LineStyle.matched :=
  render_default_no_matches cleanLog (by decide)

/-! The missing-module example: refuted as universally stated, proved under a
cap-room hypothesis. -/

theorem mem_take_middle {α : Type} (l₁ l₂ : List α) (a : α) (n : Nat)
    (h : l₁.length < n) : a ∈ (l₁ ++ a :: l₂).take n := by
  rw [List.take_append_eq_append_take]
  rw [List.take_of_length_le (Nat.le_of_lt h)]
  rw [show n - l₁.length = (n - l₁.length - 1) + 1 from by omega, List.take_succ_cons]
  exact List.mem_append_right _ (List.mem_cons_self _ _)

/-- Counterexample to C5 as stated: a log body containing the literal
missing-module line on which the scan returns no `Missing Module` match at
all, because five earlier matches of the higher-priority resolver signature
exhaust the cap first. -/
theorem missing_module_cap_counterexample :
    mmLine ∈ rustLines sBad ∧ ∀ m ∈ scan sBad, m.category ≠ "Missing Module" :=
  ⟨by decide, by decide⟩

/-- C5 (amended): if the log body contains the literal missing-module line at
0-based line index `k`, and the total match count of the resolver signature
plus the match count of the missing-module signature on the earlier lines
leave room under the 5-match cap, then the scan yields the `Missing Module` match at
line `k + 1` and the default-mode detection block renders it with the exact
install hint of the suggestion table. -/
theorem missing_module_detected_under_cap (s : String) (k : Nat)
    (h1 : (rustLines s).get? k = some mmLine)
    (h2 : (rustLines s).countP (ciSeq "[commonjs--resolver]" "failed to resolve")
        + ((rustLines s).take k).countP (ciHas "cannot find module") < 5) :
    Match.mk "Missing Module" mmLine (k + 1) ∈ scan s ∧
      ∃ d, (render s DisclosureMode.default).detection = some d ∧
        (Match.mk "Missing Module" mmLine (k + 1),
          some "Run \x27npm install\x27 or check package.json dependencies") ∈ d := by
  rcases List.get?_eq_some.mp h1 with ⟨hk, hget⟩
  have hdrop : (rustLines s).drop k = mmLine :: (rustLines s).drop (k + 1) := by
    rw [List.drop_eq_getElem_cons hk]
    rw [show (rustLines s)[k] = (rustLines s).get ⟨k, hk⟩ from rfl, hget]
  have hdecomp : rustLines s = (rustLines s).take k ++ mmLine :: (rustLines s).drop (k + 1) := by
    conv_lhs => rw [← List.take_append_drop k (rustLines s), hdrop]
  have hp2 : ciHas "cannot find module" mmLine = true := by decide
  have htlen : ((rustLines s).take k).length = k := by
    rw [List.length_take]
    omega
  have hB2 : sigMatchesFrom (ciHas "cannot find module") "Missing Module" 0 (rustLines s)
      = sigMatchesFrom (ciHas "cannot find module") "Missing Module" 0 ((rustLines s).take k)
        ++ Match.mk "Missing Module" mmLine (k + 1)
          :: sigMatchesFrom (ciHas "cannot find module") "Missing Module" (k + 1)
            ((rustLines s).drop (k + 1)) := by
    conv_lhs => rw [hdecomp]
    rw [sigMatchesFrom_append, htlen, sigMatchesFrom, if_pos hp2]
    simp
  have herr : error_patterns
      = (ciSeq "[commonjs--resolver]" "failed to resolve", "Module Resolution")
        :: (ciHas "cannot find module", "Missing Module") :: error_patterns.drop 2 := rfl
  have hcat : catMatches (rustLines s)
      = sigMatchesFrom (ciSeq "[commonjs--resolver]" "failed to resolve") "Module Resolution" 0
          (rustLines s)
        ++ (sigMatchesFrom (ciHas "cannot find module") "Missing Module" 0 (rustLines s)
          ++ (error_patterns.drop 2).flatMap
            (fun pc => sigMatchesFrom pc.1 pc.2 0 (rustLines s))) := by
    rw [catMatches]
    conv_lhs => rw [herr]
    simp only [List.flatMap_cons]
  have hmem : Match.mk "Missing Module" mmLine (k + 1) ∈ scan s := by
    rw [scan_eq_take, hcat, hB2]
    rw [List.append_assoc, List.cons_append, ← List.append_assoc]
    apply mem_take_middle
    rw [List.length_append, sigMatchesFrom_length, sigMatchesFrom_length]
    exact h2
  refine ⟨hmem, ?_⟩
  have hne : (scan s).isEmpty = false := by
    cases hsc : scan s with
    | nil => rw [hsc] at hmem; simp at hmem
    | cons a t => rfl
  refine ⟨((scan s).take 5).map (fun m => (m, suggestion m.category m.line_text)), ?_, ?_⟩
  · simp [render, hne]
  · apply List.mem_map.mpr
    refine ⟨Match.mk "Missing Module" mmLine (k + 1), ?_, ?_⟩
    · have htk : (scan s).take 5 = scan s := by
        rw [scan_eq_take, List.take_take, Nat.min_self]
      rw [htk]
      exact hmem
    · rw [show suggestion "Missing Module" mmLine
          = some "Run \x27npm install\x27 or check package.json dependencies" from by decide]

/-- Witness for the amended C5: the one-line log consisting of the literal
missing-module line itself. -/
theorem missing_module_detected_witness :
    Match.mk "Missing Module" mmLine 1 ∈ scan mmLine ∧
      ∃ d, (render mmLine DisclosureMode.default).detection = some d ∧
        (Match.mk "Missing Module" mmLine 1,
          some "Run \x27npm install\x27 or check package.json dependencies") ∈ d :=
  missing_module_detected_under_cap mmLine 0 (by decide) (by decide)

end CircleDebug
